import Mathlib

/-!
Verification of the Tip Genius prediction workflow engine.

The definitions below are a shallow embedding of the core of the
repository (`src/tip_genius/tip_genius.py` and
`src/tip_genius/lib/api_data.py`): the per-match retry/consistency loop
of `predict_results`, the odds-normalization step of
`OddsAPI.process_api_data`, the combination key of `save_results`, and
the orchestration loop of `execute_workflow`.

Decimal odds are modelled as rationals; Python literals produced by
`ast.literal_eval` are modelled by the inductive `PyVal`, restricted to
the shapes the workflow exercises: ints, floats, strings and
string-keyed dicts.
-/

namespace TipGenius

/-- A Python literal as returned by `ast.literal_eval` on an oracle
response, restricted to ints, floats, strings and string-keyed dicts. -/
inductive PyVal where
  | int : Int → PyVal
  | float : ℚ → PyVal
  | str : String → PyVal
  | dict : List (String × PyVal) → PyVal

/-- Python truthiness: numbers are truthy iff nonzero, strings iff
non-empty, dicts iff non-empty. -/
def PyVal.truthy : PyVal → Bool
  | .int n => n ≠ 0
  | .float q => q ≠ 0
  | .str s => s ≠ ""
  | .dict d => !d.isEmpty

/-- Python subscript `v[k]` with a string key: defined on dicts holding
the key, every other access raises (`none`). -/
def PyVal.getItem : PyVal → String → Option PyVal
  | .dict d, k => (d.find? (fun p => p.1 == k)).map (·.2)
  | _, _ => none

/-- Python `isinstance(v, int)` for the literals of the model. -/
def PyVal.isInt : PyVal → Bool
  | .int _ => true
  | _ => false

/-- Python strict comparison `b < a` (that is, `a > b`): defined between
two numbers and between two strings, raising (`none`) on mixed types. -/
def PyVal.pyGt : PyVal → PyVal → Option Bool
  | .int a, .int b => some (decide (b < a))
  | .int a, .float b => some (decide (b < (a : ℚ)))
  | .float a, .int b => some (decide ((b : ℚ) < a))
  | .float a, .float b => some (decide (b < a))
  | .str a, .str b => some (decide (b < a))
  | _, _ => none

/-- `is_prediction_consistent` from `predict_results`
(tip_genius.py): `not ((p_home > p_away and o_home >= o_away) or
(p_home < p_away and o_home <= o_away))`.  The goal counts come from
the parsed response and may be arbitrary literals (a type error during
the comparison raises, `none`); the odds come from the dataframe and
are numbers. -/
def is_prediction_consistent (p_home p_away : PyVal) (o_home o_away : ℚ) :
    Option Bool :=
  match p_home.pyGt p_away, p_away.pyGt p_home with
  | some gt, some lt =>
      some (!((gt && decide (o_away ≤ o_home)) || (lt && decide (o_home ≤ o_away))))
  | _, _ => none

/-- One dataframe row of `predict_results`: the canonical odds columns
produced by `process_api_data` together with the prediction columns,
which start at their `pl.lit` defaults (`""`, `0`, `0`).  The integer
`validity` column only ever holds 0 or 1, so it is carried as a Bool. -/
structure Row where
  odds_home : ℚ := 0
  odds_away : ℚ := 0
  odds_draw : ℚ := 0
  reasoning : String := ""
  prediction_home : Int := 0
  prediction_away : Int := 0
  outlook : String := ""
  validity : Bool := false
deriving DecidableEq, Repr

/-- Evaluation of
`is_prediction_consistent(response["prediction"]["home"],
response["prediction"]["away"], odds_home, odds_away)` on a parsed
response: a missing key or a comparison type error raises (`none`). -/
def attemptConsistency (v : PyVal) (o_home o_away : ℚ) : Option Bool :=
  match v.getItem "prediction" with
  | none => none
  | some pd =>
    match pd.getItem "home", pd.getItem "away" with
    | some ph, some pa => is_prediction_consistent ph pa o_home o_away
    | _, _ => none

/-- An oracle attempt succeeds when `literal_eval(llm.get_prediction(...))`
returns a value (`oracle k = some v`; `none` is a transport or parse
exception) whose consistency check evaluates to `True`. -/
def attemptOk (oracle : Nat → Option PyVal) (o_home o_away : ℚ) (k : Nat) : Bool :=
  match oracle k with
  | some v => attemptConsistency v o_home o_away == some true
  | none => false

/-- Result of the `for attempt in range(self.llm_attempts)` loop:
the final `last_response`, the number of `get_prediction` calls made,
and the index at which `break` fired, if any. -/
structure RetryOutcome where
  lastResponse : Option PyVal
  calls : Nat
  breakIdx : Option Nat

/-- The retry loop of `predict_results`, iterating attempts
`k, k+1, ...` with `r` iterations left.  Each iteration makes exactly
one oracle call; a parsed response always overwrites `last_response`
before the consistency check runs; `break` fires only on a response
whose consistency check evaluates to `True`; every exception inside an
iteration advances to the next attempt. -/
def runAttempts (oracle : Nat → Option PyVal) (o_home o_away : ℚ) :
    Nat → Nat → Option PyVal → RetryOutcome
  | _, 0, last => ⟨last, 0, none⟩
  | k, r + 1, last =>
    match oracle k with
    | none =>
      let o := runAttempts oracle o_home o_away (k + 1) r last
      ⟨o.lastResponse, o.calls + 1, o.breakIdx⟩
    | some v =>
      if attemptConsistency v o_home o_away = some true then ⟨some v, 1, some k⟩
      else
        let o := runAttempts oracle o_home o_away (k + 1) r (some v)
        ⟨o.lastResponse, o.calls + 1, o.breakIdx⟩

/-- Value of the Python loop variable `attempt` after the loop:
the break index, or `N - 1` when the loop was exhausted (`attempt` is
initialized to 0 before the loop, and Nat subtraction makes `N - 1`
agree with that for `N = 0`). -/
def attemptVar (N : Nat) (breakIdx : Option Nat) : Nat :=
  match breakIdx with
  | some k => k
  | none => N - 1

/-- `validate_prediction` from `predict_results` (tip_genius.py): the
Python chain `pred["reasoning"] and pred["outlook"] and
isinstance(pred["prediction"]["home"], int) and
isinstance(pred["prediction"]["away"], int)`, with short-circuit
evaluation.  `some b` is the chain reaching a boolean; `none` marks
both a raising key lookup and a falsy short-circuit value, which the
integer `validity` column rejects — either way the subsequent cell
assignment raises and `validity` keeps its previous value. -/
def validate_prediction (pred : PyVal) : Option Bool :=
  match pred.getItem "reasoning" with
  | none => none
  | some r =>
    if !r.truthy then none
    else match pred.getItem "outlook" with
    | none => none
    | some o =>
      if !o.truthy then none
      else match pred.getItem "prediction" with
      | none => none
      | some pd =>
        match pd.getItem "home" with
        | none => none
        | some h =>
          if !h.isInt then some false
          else match pd.getItem "away" with
          | none => none
          | some a => some a.isInt

/-- The block of dataframe cell assignments at the end of a successful
row iteration of `predict_results`.  Cell assignment is strict: a
string column accepts only a Python str, an integer column only a
Python int, anything else raises, aborting the remaining assignments
of the row (the row-level handler then moves on). -/
def writeRow (r : Row) (v : PyVal) : Row :=
  match v.getItem "reasoning" with
  | some (.str s) =>
    let r1 := { r with reasoning := s }
    match v.getItem "prediction" >>= (·.getItem "home") with
    | some (.int h) =>
      let r2 := { r1 with prediction_home := h }
      match v.getItem "prediction" >>= (·.getItem "away") with
      | some (.int a) =>
        let r3 := { r2 with prediction_away := a }
        match v.getItem "outlook" with
        | some (.str ou) =>
          let r4 := { r3 with outlook := ou }
          match validate_prediction v with
          | some b => { r4 with validity := b }
          | none => r4
        | _ => r3
      | _ => r2
    | _ => r1
  | _ => r

/-- Outcome of one row of `predict_results`: the (possibly updated)
row, the number of oracle calls made for it, and whether the
`Using inconsistent prediction` warning fired. -/
structure RowOutcome where
  row : Row
  calls : Nat
  warned : Bool
deriving DecidableEq, Repr

/-- One iteration of the row loop of `predict_results`: skip the row
outright when a canonical odds field equals zero; otherwise run the
retry loop, skip when `last_response` is `None` or falsy, and finally
write the prediction cells. -/
def processRow (N : Nat) (oracle : Nat → Option PyVal) (row : Row) : RowOutcome :=
  if row.odds_home = 0 ∨ row.odds_away = 0 ∨ row.odds_draw = 0 then ⟨row, 0, false⟩
  else
    let o := runAttempts oracle row.odds_home row.odds_away 0 N none
    match o.lastResponse with
    | none => ⟨row, o.calls, false⟩
    | some v =>
      if !v.truthy then ⟨row, o.calls, false⟩
      else
        let warned := decide ((attemptVar N o.breakIdx : Int) = (N : Int) - 1)
        ⟨writeRow row v, o.calls, warned⟩

/-- `predict_results` from tip_genius.py over its row loop.  The first
argument models whether the `LLMManager` constructor succeeded: on
failure the function returns the dataframe unmodified (zero oracle
calls).  The oracle is indexed by row number and attempt number. -/
def predict_results (N : Nat) (llmInitOk : Bool)
    (oracle : Nat → Nat → Option PyVal) : Nat → List Row → List RowOutcome
  | _, [] => []
  | i, r :: rest =>
    if llmInitOk then
      processRow N (oracle i) r :: predict_results N llmInitOk oracle (i + 1) rest
    else ⟨r, 0, false⟩ :: predict_results N llmInitOk oracle (i + 1) rest

/-- Default of the `llm_attempts` class attribute of `TipGenius`. -/
def llm_attempts_default : Nat := 4

/-- The validity filter of `execute_workflow`:
`data_processed.filter(pl.col("validity").cast(pl.Boolean))`. -/
def filterValidRows (rows : List Row) : List Row :=
  rows.filter (·.validity)

/-- A well-shaped oracle response: the dict literal
`{"reasoning": re, "prediction": {"home": ph, "away": pa}, "outlook": ou}`. -/
def mkResponse (re : String) (ph pa : PyVal) (ou : String) : PyVal :=
  PyVal.dict [("reasoning", .str re),
              ("prediction", .dict [("home", ph), ("away", pa)]),
              ("outlook", .str ou)]

/-- A concrete match row whose home side is the priced underdog
(odds 5.5 home, 1.5 away, 4.5 draw). -/
def rowHomeUnderdog : Row :=
  { odds_home := mkRat 11 2, odds_away := mkRat 3 2, odds_draw := mkRat 9 2 }

/-- A well-shaped response predicting a decisive home win, which is
inconsistent with `rowHomeUnderdog`'s odds. -/
def respHomeWin : PyVal := mkResponse "r" (.int 2) (.int 0) "o"

/-- A concrete oracle behavior: the first attempt parses into a
well-shaped but inconsistent response, the second attempt parses into
the bare literal `42` (a perfectly parseable Python literal without
the expected dict shape), and every later attempt raises. -/
def oracleMixed : Nat → Option PyVal
  | 0 => some respHomeWin
  | 1 => some (.int 42)
  | _ => none

/-- One entry of a bookmaker's `markets[0]["outcomes"]` list in the
raw odds payload handled by `OddsAPI.process_api_data`. -/
structure Outcome where
  name : String
  price : ℚ
deriving DecidableEq, Repr

/-- One bookmaker entry of a match's raw `bookmakers` list. -/
structure Bookmaker where
  key : String
  outcomes : List Outcome
deriving DecidableEq, Repr

/-- `next((outcome["price"] for outcome in outcomes if
outcome["name"] == name), None)` from `process_api_data`: the price of
the first outcome with the given name, if any. -/
def extractPrice (outcomes : List Outcome) (name : String) : Option ℚ :=
  (outcomes.find? (fun o => o.name == name)).map (·.price)

/-- Python truthiness of an extracted price: both `None` (outcome
absent) and a price of `0.0` are falsy. -/
def truthyPrice : Option ℚ → Bool
  | none => false
  | some q => q ≠ 0

/-- The `bookmakers_dict` entry contributed by one bookmaker in
`process_api_data`: present iff `cur_home and cur_away and cur_draw`
is truthy in Python. -/
def bookmakerEntry (bm : Bookmaker) (home_team away_team : String) :
    Option (String × ℚ × ℚ × ℚ) :=
  let cur_home := extractPrice bm.outcomes home_team
  let cur_away := extractPrice bm.outcomes away_team
  let cur_draw := extractPrice bm.outcomes "Draw"
  if truthyPrice cur_home && truthyPrice cur_away && truthyPrice cur_draw then
    some (bm.key, cur_home.getD 0, cur_away.getD 0, cur_draw.getD 0)
  else none

/-- The full `bookmakers_dict` of one match (the Quote Set). -/
def buildQuoteSet (bms : List Bookmaker) (home_team away_team : String) :
    List (String × ℚ × ℚ × ℚ) :=
  bms.filterMap (fun bm => bookmakerEntry bm home_team away_team)

/-- Python dict lookup `bookmakers_dict.get(k)` on the assoc-list image
of the dict: a later assignment to the same key overwrites, so lookup
takes the last binding. -/
def dictGet (l : List (String × ℚ × ℚ × ℚ)) (k : String) : Option (ℚ × ℚ × ℚ) :=
  (l.reverse.find? (fun p => p.1 == k)).map (·.2)

/-- The combination key of `save_results` (tip_genius.py):
`"{llm_provider}_{prediction_type}_" + ("named"|"anonymized") + "_" +
("with-info"|"no-info")`. -/
def combinationKey (llm_provider prediction_type : String)
    (named_teams additional_info : Bool) : String :=
  llm_provider ++ "_" ++ prediction_type ++ "_" ++
    (if named_teams then "named" else "anonymized") ++ "_" ++
    (if additional_info then "with-info" else "no-info")

/-- Split a character list at its first underscore, dropping the
underscore. -/
def splitAtUnderscore : List Char → List Char × List Char
  | [] => ([], [])
  | c :: cs =>
    if c = '_' then ([], cs)
    else
      let p := splitAtUnderscore cs
      (c :: p.1, p.2)

/-- The bookmaker-priority walk of `process_api_data`: starting from
the sentinel `(0.0, 0.0, 0.0)`, odds are overwritten by the first
prioritized bookmaker present in the Quote Set, and the loop breaks. -/
def selectCanonicalOdds (priority : List String)
    (qsGet : String → Option (ℚ × ℚ × ℚ)) : ℚ × ℚ × ℚ :=
  match priority with
  | [] => (0, 0, 0)
  | b :: rest =>
    match qsGet b with
    | some t => t
    | none => selectCanonicalOdds rest qsGet

/-- A concrete match row whose home side is the priced favorite. -/
def rowHomeFavorite : Row :=
  { odds_home := mkRat 3 2, odds_away := mkRat 11 2, odds_draw := mkRat 9 2 }

/-- The raw `api_result` fetched for one sport, as the orchestrator
sees it: its Python truthiness plus an opaque payload tag consumed by
`process_api_data`. -/
structure ApiData where
  truthy : Bool
  payload : String
deriving DecidableEq, Repr

/-- The collaborators of `execute_workflow`: the odds fetch, the odds
normalizer, the `LLMManager` constructor outcome per provider and
style, and the oracle indexed by provider, style, row and attempt.
`Except.error e` models a raised exception carrying message `e`. -/
structure Collaborators where
  fetch_api_data : String → Except String ApiData
  process_api_data : ApiData → Bool → Bool → Except String (List Row)
  llm_init : String → String → Bool
  get_prediction : String → String → Nat → Nat → Option PyVal

/-- The workflow configuration consumed by `execute_workflow`. -/
structure WorkflowConfig where
  sports_list : List String
  llm_provider_options : List String
  prediction_type_options : List String
  named_teams_options : List Bool
  additional_info_options : List Bool
  export_to_kv : Bool
  export_to_file : Bool
  llm_attempts : Nat

/-- `itertools.product` over providers, styles and the two boolean
option lists, rightmost varying fastest. -/
def comboList (cfg : WorkflowConfig) : List (String × String × Bool × Bool) :=
  cfg.llm_provider_options.flatMap fun p =>
    cfg.prediction_type_options.flatMap fun t =>
      cfg.named_teams_options.flatMap fun n =>
        cfg.additional_info_options.map fun a => (p, t, n, a)

/-- Insert-or-overwrite on an insertion-ordered association list, the
image of one Python dict assignment. -/
def upsert {β : Type} (k : String) (v : β) :
    List (String × β) → List (String × β)
  | [] => [(k, v)]
  | (k', v') :: rest =>
    if k' = k then (k, v) :: rest else (k', v') :: upsert k v rest

/-- The nested `prediction_data` mapping of `TipGenius`: combination
key → sport → stored match rows. -/
abbrev PredData := List (String × List (String × List Row))

/-- `save_results`: store the valid matches under the combination key
and the sport (`self.prediction_data[key][sport] = matches`; the logo
decoration of the match dicts is a collaborator concern and carries no
workflow state). -/
def save_results (pd : PredData) (sport llm_provider prediction_type : String)
    (named_teams additional_info : Bool) (matchRows : List Row) : PredData :=
  let key := combinationKey llm_provider prediction_type named_teams additional_info
  let inner := ((pd.find? (fun q => q.1 == key)).map (·.2)).getD []
  upsert key (upsert sport matchRows inner) pd

/-- The observable state of one `execute_workflow` run: the
accumulated result set, the failed-combinations list, the number of
combinations entered, and the successive snapshots handed to the
Result Sink. -/
structure WorkflowState where
  prediction_data : PredData
  failed_combinations : List (String × String × String)
  processed_count : Nat
  export_calls : List PredData
deriving DecidableEq

/-- One combination iteration of `execute_workflow`'s inner loop:
count it, fail it on falsy API data or on a raising normalization, and
otherwise run `predict_results` and store the surviving valid rows, if
any. -/
def processCombo (C : Collaborators) (N : Nat) (sport : String) (api : ApiData)
    (st : WorkflowState) (combo : String × String × Bool × Bool) :
    WorkflowState :=
  let st := { st with processed_count := st.processed_count + 1 }
  let (llm_provider, prediction_type, named_teams, additional_info) := combo
  if !api.truthy then
    { st with failed_combinations :=
        st.failed_combinations ++ [(sport, llm_provider, "No valid API data")] }
  else
    match C.process_api_data api named_teams additional_info with
    | .error e =>
      { st with failed_combinations :=
          st.failed_combinations ++ [(sport, llm_provider, e)] }
    | .ok rows =>
      let processed := predict_results N (C.llm_init llm_provider prediction_type)
        (C.get_prediction llm_provider prediction_type) 0 rows
      let valid := filterValidRows (processed.map (·.row))
      if valid.isEmpty then st
      else
        let pd := save_results st.prediction_data sport llm_provider
          prediction_type named_teams additional_info valid
        { st with prediction_data := pd }

/-- One sport iteration of `execute_workflow`: a raising fetch skips
the sport entirely, otherwise every combination is processed. -/
def processSport (C : Collaborators) (N : Nat)
    (combos : List (String × String × Bool × Bool))
    (st : WorkflowState) (sport : String) : WorkflowState :=
  match C.fetch_api_data sport with
  | .error _ => st
  | .ok api => combos.foldl (processCombo C N sport api) st

/-- The export block of `execute_workflow`: `if self.prediction_data
and (self.export_to_kv or self.export_to_file)`, hand the accumulated
prediction data to the Result Sink. -/
def attemptExport (cfg : WorkflowConfig) (st : WorkflowState) : WorkflowState :=
  if !st.prediction_data.isEmpty && (cfg.export_to_kv || cfg.export_to_file) then
    { st with export_calls := st.export_calls ++ [st.prediction_data] }
  else st

/-- `execute_workflow`: clear the prediction data, bail out on an
empty sport or provider list, process every sport and combination, run
the main export block, and — when a later step (the failure summary)
raises, modelled by `lateError` — run the outer handler's last-resort
export before re-raising. -/
def execute_workflow (C : Collaborators) (cfg : WorkflowConfig)
    (lateError : Bool) : WorkflowState :=
  let st0 : WorkflowState := ⟨[], [], 0, []⟩
  if cfg.sports_list.isEmpty then st0
  else if cfg.llm_provider_options.isEmpty then st0
  else
    let st1 := cfg.sports_list.foldl
      (processSport C cfg.llm_attempts (comboList cfg)) st0
    let st2 := attemptExport cfg st1
    if lateError then attemptExport cfg st2 else st2

/-- A collaborator assignment whose `LLMManager` construction always
raises while everything else succeeds. -/
def collabLlmFail : Collaborators :=
  { fetch_api_data := fun _ => .ok ⟨true, "api"⟩
    process_api_data := fun _ _ _ => .ok [rowHomeFavorite]
    llm_init := fun _ _ => false
    get_prediction := fun _ _ _ _ => some respHomeWin }

/-- A single-combination configuration. -/
def cfgOneCombo : WorkflowConfig :=
  { sports_list := ["soccer"], llm_provider_options := ["p"],
    prediction_type_options := ["t"], named_teams_options := [true],
    additional_info_options := [true], export_to_kv := false,
    export_to_file := false, llm_attempts := 4 }

/-- A collaborator assignment whose normalization raises for the
named-teams variant and succeeds (with a consistent oracle) otherwise. -/
def collabMixed : Collaborators :=
  { fetch_api_data := fun _ => .ok ⟨true, "api"⟩
    process_api_data := fun _ named _ =>
      if named then .error "boom" else .ok [rowHomeFavorite]
    llm_init := fun _ _ => true
    get_prediction := fun _ _ _ _ => some respHomeWin }

/-- A two-combination configuration with the key-value export channel
enabled. -/
def cfgMixed : WorkflowConfig :=
  { sports_list := ["s"], llm_provider_options := ["p"],
    prediction_type_options := ["t"], named_teams_options := [true, false],
    additional_info_options := [false], export_to_kv := true,
    export_to_file := false, llm_attempts := 4 }

/-- C1: for integer goal counts the consistency check classifies a
prediction as inconsistent exactly when `(home_goals > away_goals ∧
odds_home ≥ odds_away) ∨ (home_goals < away_goals ∧ odds_home ≤
odds_away)`; a predicted draw is never classified as inconsistent. -/
theorem C1_consistency_characterization (ph pa : Int) (oh oa : ℚ) :
    (is_prediction_consistent (.int ph) (.int pa) oh oa = some false ↔
      ((pa < ph ∧ oa ≤ oh) ∨ (ph < pa ∧ oh ≤ oa)))
    ∧ (ph = pa → is_prediction_consistent (.int ph) (.int pa) oh oa = some true) := by
  constructor
  · simp only [is_prediction_consistent, PyVal.pyGt]
    constructor
    · intro h
      have h' : ((decide (pa < ph) && decide (oa ≤ oh)) ||
          (decide (ph < pa) && decide (oh ≤ oa))) = true := by
        by_contra hc
        simp only [Bool.not_eq_true] at hc
        simp [hc] at h
      rcases Bool.or_eq_true_iff.mp h' with hcase | hcase
      · left
        exact ⟨by simpa using (Bool.and_eq_true_iff.mp hcase).1,
               by simpa using (Bool.and_eq_true_iff.mp hcase).2⟩
      · right
        exact ⟨by simpa using (Bool.and_eq_true_iff.mp hcase).1,
               by simpa using (Bool.and_eq_true_iff.mp hcase).2⟩
    · intro h
      rcases h with ⟨h1, h2⟩ | ⟨h1, h2⟩ <;> simp [h1, h2]
  · intro h
    subst h
    simp [is_prediction_consistent, PyVal.pyGt]

/-- Witness for C1 at the spec's own example: home 2 : 0 with the home
side the priced favorite (1.5 vs 5.5) is consistent, and a draw with
equal odds is consistent. -/
theorem C1_witness :
    is_prediction_consistent (.int 1) (.int 1) (3/2 : ℚ) (11/2 : ℚ) = some true :=
  (C1_consistency_characterization 1 1 (3/2) (11/2)).2 rfl

lemma runAttempts_calls_le (oracle : Nat → Option PyVal) (oh oa : ℚ) :
    ∀ (r k : Nat) (last : Option PyVal),
      (runAttempts oracle oh oa k r last).calls ≤ r := by
  intro r
  induction r with
  | zero => intro k last; simp [runAttempts]
  | succ n ih =>
    intro k last
    simp only [runAttempts]
    cases ho : oracle k with
    | none => simpa using Nat.succ_le_succ (ih (k + 1) last)
    | some v =>
      by_cases hc : attemptConsistency v oh oa = some true
      · simp [hc]
      · simpa [hc] using Nat.succ_le_succ (ih (k + 1) (some v))

lemma attemptOk_true_elim (oracle : Nat → Option PyVal) (oh oa : ℚ) (k : Nat)
    (h : attemptOk oracle oh oa k = true) :
    ∃ v, oracle k = some v ∧ attemptConsistency v oh oa = some true := by
  unfold attemptOk at h
  cases ho : oracle k with
  | none => rw [ho] at h; exact absurd h (by simp)
  | some v =>
    rw [ho] at h
    exact ⟨v, rfl, by simpa using h⟩

lemma runAttempts_calls_of_first_ok (oracle : Nat → Option PyVal) (oh oa : ℚ) :
    ∀ (r m k : Nat) (last : Option PyVal), m < r →
      attemptOk oracle oh oa (k + m) = true →
      (∀ j < m, attemptOk oracle oh oa (k + j) = false) →
      (runAttempts oracle oh oa k r last).calls = m + 1 := by
  intro r
  induction r with
  | zero => intro m k last hm; exact absurd hm (Nat.not_lt_zero m)
  | succ n ih =>
    intro m k last hm hok hmin
    cases m with
    | zero =>
      obtain ⟨v, hv, hc⟩ := attemptOk_true_elim oracle oh oa k (by simpa using hok)
      simp [runAttempts, hv, hc]
    | succ m' =>
      have h0 : attemptOk oracle oh oa k = false := by
        simpa using hmin 0 (Nat.succ_pos m')
      have hok' : attemptOk oracle oh oa (k + 1 + m') = true := by
        have : k + 1 + m' = k + (m' + 1) := by omega
        rw [this]; exact hok
      have hmin' : ∀ j < m', attemptOk oracle oh oa (k + 1 + j) = false := by
        intro j hj
        have : k + 1 + j = k + (j + 1) := by omega
        rw [this]; exact hmin (j + 1) (by omega)
      have hm' : m' < n := by omega
      simp only [runAttempts]
      cases ho : oracle k with
      | none =>
        simp only
        rw [ih m' (k + 1) last hm' hok' hmin']
      | some v =>
        have hc : ¬ attemptConsistency v oh oa = some true := by
          intro hcon
          simp only [attemptOk, ho] at h0
          rw [hcon] at h0
          simp at h0
        simp only [if_neg hc]
        rw [ih m' (k + 1) (some v) hm' hok' hmin']

lemma processRow_calls (N : Nat) (oracle : Nat → Option PyVal) (row : Row)
    (hz : ¬(row.odds_home = 0 ∨ row.odds_away = 0 ∨ row.odds_draw = 0)) :
    (processRow N oracle row).calls =
      (runAttempts oracle row.odds_home row.odds_away 0 N none).calls := by
  simp only [processRow, if_neg hz]
  cases h : (runAttempts oracle row.odds_home row.odds_away 0 N none).lastResponse with
  | none => simp [h]
  | some v => cases ht : v.truthy <;> simp [h, ht]

/-- C4: with non-zero canonical odds the retry loop makes at most
`llm_attempts` oracle calls for a match (default 4), and it stops
issuing calls as soon as one attempt parses and passes the consistency
check: if attempt `m` is the first such attempt, exactly `m + 1` calls
are made. -/
theorem C4_retry_bound_and_early_stop (N : Nat) (oracle : Nat → Option PyVal)
    (row : Row)
    (hz : ¬(row.odds_home = 0 ∨ row.odds_away = 0 ∨ row.odds_draw = 0)) :
    (processRow N oracle row).calls ≤ N
    ∧ llm_attempts_default = 4
    ∧ ∀ m < N, attemptOk oracle row.odds_home row.odds_away m = true →
        (∀ j < m, attemptOk oracle row.odds_home row.odds_away j = false) →
        (processRow N oracle row).calls = m + 1 := by
  refine ⟨?_, rfl, ?_⟩
  · rw [processRow_calls N oracle row hz]
    exact runAttempts_calls_le oracle row.odds_home row.odds_away N 0 none
  · intro m hm hok hmin
    rw [processRow_calls N oracle row hz]
    exact runAttempts_calls_of_first_ok oracle row.odds_home row.odds_away N m 0 none hm
      (by simpa using hok) (by simpa using hmin)

/-- Witness for C4: a concrete oracle that fails to parse on the first
attempt and returns a consistent response on the second makes exactly
two calls out of the allowed four. -/
theorem C4_witness :
    (processRow 4
        (fun k => if k = 0 then none
                  else some (mkResponse "r" (.int 2) (.int 0) "o"))
        { odds_home := mkRat 3 2, odds_away := mkRat 11 2, odds_draw := 4 }).calls = 2 := by
  have h := C4_retry_bound_and_early_stop 4
      (fun k => if k = 0 then none
                else some (mkResponse "r" (.int 2) (.int 0) "o"))
      { odds_home := mkRat 3 2, odds_away := mkRat 11 2, odds_draw := 4 }
      (by decide)
  refine h.2.2 1 (by norm_num) (by decide) ?_
  intro j hj
  interval_cases j
  decide

lemma predict_results_length (N : Nat) (ok : Bool) (oracle : Nat → Nat → Option PyVal) :
    ∀ (i : Nat) (rows : List Row),
      (predict_results N ok oracle i rows).length = rows.length := by
  intro i rows
  induction rows generalizing i with
  | nil => rfl
  | cons r rest ih =>
    cases ok <;> simp [predict_results, ih]

lemma predict_results_get (N : Nat) (ok : Bool) (oracle : Nat → Nat → Option PyVal) :
    ∀ (rows : List Row) (i j : Nat) (h : j < rows.length)
      (h2 : j < (predict_results N ok oracle i rows).length),
      (predict_results N ok oracle i rows).get ⟨j, h2⟩ =
        if ok then processRow N (oracle (i + j)) (rows.get ⟨j, h⟩)
        else ⟨rows.get ⟨j, h⟩, 0, false⟩ := by
  intro rows
  induction rows with
  | nil => intro i j h h2; exact absurd h (Nat.not_lt_zero j)
  | cons r rest ih =>
    intro i j h h2
    cases j with
    | zero => cases ok <;> simp [predict_results]
    | succ j' =>
      have h' : j' < rest.length := by simpa using h
      have h2' : j' < (predict_results N ok oracle (i + 1) rest).length := by
        rw [predict_results_length]; exact h'
      have harg : i + 1 + j' = i + (j' + 1) := by omega
      cases ok with
      | false =>
        simpa [predict_results] using ih (i + 1) j' h' h2'
      | true =>
        have := ih (i + 1) j' h' h2'
        simp only [predict_results, if_pos] at this ⊢
        simpa [List.get, harg] using this

/-- C2: a match row with a zero in any of the three canonical odds
fields is skipped by `predict_results` before any attempt: its entry
makes zero oracle calls and the row is returned unchanged. -/
theorem C2_zero_odds_no_oracle_call (N : Nat) (llmInitOk : Bool)
    (oracle : Nat → Nat → Option PyVal) (rows : List Row) (j : Nat)
    (h : j < rows.length)
    (h2 : j < (predict_results N llmInitOk oracle 0 rows).length)
    (hz : (rows.get ⟨j, h⟩).odds_home = 0 ∨ (rows.get ⟨j, h⟩).odds_away = 0 ∨
          (rows.get ⟨j, h⟩).odds_draw = 0) :
    ((predict_results N llmInitOk oracle 0 rows).get ⟨j, h2⟩).calls = 0
    ∧ ((predict_results N llmInitOk oracle 0 rows).get ⟨j, h2⟩).row =
        rows.get ⟨j, h⟩ := by
  rw [predict_results_get N llmInitOk oracle rows 0 j h h2]
  cases llmInitOk with
  | false => simp
  | true =>
    have hz' : rows[j].odds_home = 0 ∨ rows[j].odds_away = 0 ∨
        rows[j].odds_draw = 0 := by
      simpa [List.get_eq_getElem] using hz
    simp [processRow, hz']

/-- Witness for C2: in a two-row dataframe whose second row has a zero
draw odds field, the second row makes zero oracle calls even though the
oracle would answer. -/
theorem C2_witness :
    ((predict_results 4 true
        (fun _ _ => some (mkResponse "r" (.int 2) (.int 0) "o")) 0
        [{ odds_home := mkRat 3 2, odds_away := mkRat 11 2, odds_draw := 4 },
         { odds_home := mkRat 3 2, odds_away := mkRat 11 2, odds_draw := 0 }]).get
        ⟨1, by rw [predict_results_length]; decide⟩).calls = 0 :=
  (C2_zero_odds_no_oracle_call 4 true
      (fun _ _ => some (mkResponse "r" (.int 2) (.int 0) "o"))
      [{ odds_home := mkRat 3 2, odds_away := mkRat 11 2, odds_draw := 4 },
       { odds_home := mkRat 3 2, odds_away := mkRat 11 2, odds_draw := 0 }]
      1 (by decide) (by rw [predict_results_length]; decide) (by right; right; rfl)).1

lemma runAttempts_allNone (oracle : Nat → Option PyVal) (oh oa : ℚ) :
    ∀ (r k : Nat) (last : Option PyVal), (∀ j < r, oracle (k + j) = none) →
      (runAttempts oracle oh oa k r last).lastResponse = last := by
  intro r
  induction r with
  | zero => intro k last _; rfl
  | succ n ih =>
    intro k last hnone
    have h0 : oracle k = none := by simpa using hnone 0 (Nat.succ_pos n)
    have hrest : ∀ j < n, oracle (k + 1 + j) = none := by
      intro j hj
      have : k + 1 + j = k + (j + 1) := by omega
      rw [this]; exact hnone (j + 1) (by omega)
    simp only [runAttempts, h0]
    exact ih (k + 1) last hrest

lemma runAttempts_noBreak (oracle : Nat → Option PyVal) (oh oa : ℚ) :
    ∀ (r k : Nat) (last : Option PyVal),
      (∀ j < r, attemptOk oracle oh oa (k + j) = false) →
      (runAttempts oracle oh oa k r last).breakIdx = none
      ∧ (runAttempts oracle oh oa k r last).calls = r := by
  intro r
  induction r with
  | zero => intro k last _; exact ⟨rfl, rfl⟩
  | succ n ih =>
    intro k last hmin
    have h0 : attemptOk oracle oh oa k = false := by
      simpa using hmin 0 (Nat.succ_pos n)
    have hrest : ∀ j < n, attemptOk oracle oh oa (k + 1 + j) = false := by
      intro j hj
      have : k + 1 + j = k + (j + 1) := by omega
      rw [this]; exact hmin (j + 1) (by omega)
    simp only [runAttempts]
    cases ho : oracle k with
    | none =>
      have := ih (k + 1) last hrest
      exact ⟨this.1, by simp [this.2]⟩
    | some v =>
      have hc : ¬ attemptConsistency v oh oa = some true := by
        intro hcon
        simp only [attemptOk, ho] at h0
        rw [hcon] at h0
        simp at h0
      have := ih (k + 1) (some v) hrest
      simp only [if_neg hc]
      exact ⟨this.1, by simp [this.2]⟩

lemma runAttempts_lastResponse (oracle : Nat → Option PyVal) (oh oa : ℚ) :
    ∀ (r m k : Nat) (last : Option PyVal) (v : PyVal), m < r →
      oracle (k + m) = some v →
      (∀ j, m < j → j < r → oracle (k + j) = none) →
      (∀ j < r, attemptOk oracle oh oa (k + j) = false) →
      (runAttempts oracle oh oa k r last).lastResponse = some v := by
  intro r
  induction r with
  | zero => intro m k last v hm; exact absurd hm (Nat.not_lt_zero m)
  | succ n ih =>
    intro m k last v hm hv hlater hmin
    have h0 : attemptOk oracle oh oa k = false := by
      simpa using hmin 0 (Nat.succ_pos n)
    have hminrest : ∀ j < n, attemptOk oracle oh oa (k + 1 + j) = false := by
      intro j hj
      have : k + 1 + j = k + (j + 1) := by omega
      rw [this]; exact hmin (j + 1) (by omega)
    cases m with
    | zero =>
      have hvk : oracle k = some v := by simpa using hv
      have hc : ¬ attemptConsistency v oh oa = some true := by
        intro hcon
        simp only [attemptOk, hvk] at h0
        rw [hcon] at h0
        simp at h0
      have hnone : ∀ j < n, oracle (k + 1 + j) = none := by
        intro j hj
        have : k + 1 + j = k + (j + 1) := by omega
        rw [this]; exact hlater (j + 1) (Nat.succ_pos j) (by omega)
      simp only [runAttempts, hvk, if_neg hc]
      exact runAttempts_allNone oracle oh oa n (k + 1) (some v) hnone
    | succ m' =>
      have hv' : oracle (k + 1 + m') = some v := by
        have : k + 1 + m' = k + (m' + 1) := by omega
        rw [this]; exact hv
      have hlater' : ∀ j, m' < j → j < n → oracle (k + 1 + j) = none := by
        intro j hj1 hj2
        have : k + 1 + j = k + (j + 1) := by omega
        rw [this]; exact hlater (j + 1) (by omega) (by omega)
      have hm' : m' < n := by omega
      simp only [runAttempts]
      cases ho : oracle k with
      | none =>
        exact ih m' (k + 1) last v hm' hv' hlater' hminrest
      | some w =>
        have hc : ¬ attemptConsistency w oh oa = some true := by
          intro hcon
          simp only [attemptOk, ho] at h0
          rw [hcon] at h0
          simp at h0
        simp only [if_neg hc]
        exact ih m' (k + 1) (some w) v hm' hv' hlater' hminrest

/-- C6 (amended core is not needed; the claim holds): for a response
dict carrying a `reasoning` string, an `outlook` string and two goal
fields, the written validity flag is true exactly when both strings
are non-empty and both goal fields are ints; and the export filter
keeps exactly the rows whose validity flag is true — the consistency
predicate plays no role in it. -/
theorem C6_validity_and_export_filter (r0 : Row) (h0 : r0.validity = false)
    (re ou : String) (ph pa : PyVal) (rows : List Row) (r : Row) :
    ((writeRow r0 (mkResponse re ph pa ou)).validity =
      (decide (re ≠ "") && decide (ou ≠ "") && ph.isInt && pa.isInt))
    ∧ (r ∈ filterValidRows rows ↔ r ∈ rows ∧ r.validity = true) := by
  constructor
  · cases ph <;> cases pa <;>
      by_cases hre : re = "" <;> by_cases hou : ou = "" <;>
      simp [writeRow, mkResponse, PyVal.getItem, validate_prediction,
            PyVal.truthy, PyVal.isInt, h0, hre, hou]
  · simp [filterValidRows, List.mem_filter]

/-- Witness for C6 at a concrete valid response and a singleton
filter. -/
theorem C6_witness :
    ((writeRow { } (mkResponse "r" (.int 2) (.int 1) "o")).validity =
      (decide (("r" : String) ≠ "") && decide (("o" : String) ≠ "") &&
        (PyVal.int 2).isInt && (PyVal.int 1).isInt))
    ∧ (({ } : Row) ∈ filterValidRows [({ } : Row)] ↔
        ({ } : Row) ∈ [({ } : Row)] ∧ ({ } : Row).validity = true) :=
  C6_validity_and_export_filter { } rfl "r" "o" (.int 2) (.int 1) [{ }] { }

/-- C5 counterexample: with default `llm_attempts = 4`, an oracle whose
first attempt parses into a well-shaped but odds-inconsistent response
and whose second attempt parses into the bare literal `42` — a
parseable response that `last_response` then holds — leaves the row
entirely unchanged: no prediction is written even though at least one
attempt parsed and none passed the consistency check, contradicting
the claim that the last parsed response is written to the row. -/
theorem C5_counterexample :
    oracleMixed 0 = some respHomeWin
    ∧ attemptConsistency respHomeWin rowHomeUnderdog.odds_home
        rowHomeUnderdog.odds_away = some false
    ∧ oracleMixed 1 = some (.int 42)
    ∧ attemptOk oracleMixed rowHomeUnderdog.odds_home
        rowHomeUnderdog.odds_away 0 = false
    ∧ attemptOk oracleMixed rowHomeUnderdog.odds_home
        rowHomeUnderdog.odds_away 1 = false
    ∧ attemptOk oracleMixed rowHomeUnderdog.odds_home
        rowHomeUnderdog.odds_away 2 = false
    ∧ attemptOk oracleMixed rowHomeUnderdog.odds_home
        rowHomeUnderdog.odds_away 3 = false
    ∧ (processRow 4 oracleMixed rowHomeUnderdog).row = rowHomeUnderdog
    ∧ filterValidRows [(processRow 4 oracleMixed rowHomeUnderdog).row] = [] :=
  ⟨rfl, by decide, rfl, by decide, by decide, by decide, by decide,
   by decide, by decide⟩

lemma writeRow_wellShaped (r : Row) (re ou : String) (h a : Int) :
    ∃ b, writeRow r (mkResponse re (.int h) (.int a) ou) =
      { r with reasoning := re, prediction_home := h, prediction_away := a,
               outlook := ou, validity := b } := by
  cases hvp : validate_prediction (mkResponse re (.int h) (.int a) ou) with
  | none =>
    refine ⟨r.validity, ?_⟩
    simp only [mkResponse] at hvp
    simp [writeRow, mkResponse, PyVal.getItem, hvp]
  | some b =>
    refine ⟨b, ?_⟩
    simp only [mkResponse] at hvp
    simp [writeRow, mkResponse, PyVal.getItem, hvp]

/-- C5 (amended): if none of the `N` attempts parses, the row is left
unchanged and is absent from the export filter; if at least one
attempt parses, none passes the consistency check, and the last parsed
response is a well-shaped prediction dict (string reasoning and
outlook, integer goals), then that response is written to the row and
the inconsistent-prediction warning fires. -/
theorem C5_exhaustion_behavior (N : Nat) (oracle : Nat → Option PyVal) (row : Row)
    (hz : ¬(row.odds_home = 0 ∨ row.odds_away = 0 ∨ row.odds_draw = 0))
    (hv : row.validity = false) :
    ((∀ k < N, oracle k = none) →
      (processRow N oracle row).row = row ∧
      filterValidRows [(processRow N oracle row).row] = [])
    ∧ (∀ m re ou h a, m < N →
        oracle m = some (mkResponse re (.int h) (.int a) ou) →
        (∀ j, m < j → j < N → oracle j = none) →
        (∀ j < N, attemptOk oracle row.odds_home row.odds_away j = false) →
        (processRow N oracle row).row =
          writeRow row (mkResponse re (.int h) (.int a) ou)
        ∧ (processRow N oracle row).row.reasoning = re
        ∧ (processRow N oracle row).row.prediction_home = h
        ∧ (processRow N oracle row).row.prediction_away = a
        ∧ (processRow N oracle row).row.outlook = ou
        ∧ (processRow N oracle row).warned = true) := by
  constructor
  · intro hnone
    have hlast : (runAttempts oracle row.odds_home row.odds_away 0 N none).lastResponse
        = none := by
      apply runAttempts_allNone
      intro j hj
      simpa using hnone j hj
    have hrow : (processRow N oracle row).row = row := by
      simp [processRow, if_neg hz, hlast]
    exact ⟨hrow, by simp [filterValidRows, hrow, hv]⟩
  · intro m re ou h a hm hv' hlater hmin
    have hok' : ∀ j < N, attemptOk oracle row.odds_home row.odds_away (0 + j) = false := by
      intro j hj; simpa using hmin j hj
    have hlast : (runAttempts oracle row.odds_home row.odds_away 0 N none).lastResponse
        = some (mkResponse re (.int h) (.int a) ou) := by
      apply runAttempts_lastResponse oracle row.odds_home row.odds_away N m 0 none
        _ hm (by simpa using hv') (by intro j hj1 hj2; simpa using hlater j hj1 hj2) hok'
    have hbreak : (runAttempts oracle row.odds_home row.odds_away 0 N none).breakIdx
        = none :=
      (runAttempts_noBreak oracle row.odds_home row.odds_away N 0 none hok').1
    have htruthy : (mkResponse re (.int h) (.int a) ou).truthy = true := by
      simp [mkResponse, PyVal.truthy]
    have hwarn : ((attemptVar N (none : Option Nat) : Nat) : Int) = (N : Int) - 1 := by
      simp only [attemptVar]
      omega
    have hrow : processRow N oracle row =
        ⟨writeRow row (mkResponse re (.int h) (.int a) ou),
         (runAttempts oracle row.odds_home row.odds_away 0 N none).calls, true⟩ := by
      simp [processRow, if_neg hz, hlast, htruthy, hbreak, hwarn]
    obtain ⟨b, hb⟩ := writeRow_wellShaped row re ou h a
    refine ⟨by rw [hrow], ?_, ?_, ?_, ?_, by rw [hrow]⟩ <;>
      rw [hrow] <;> simp [hb]

/-- Witness for the amended C5: a single inconsistent well-shaped
response on the first of four attempts ends up written to the row with
the warning fired. -/
theorem C5_witness :
    (processRow 4 (fun k => if k = 0 then some respHomeWin else none)
        rowHomeUnderdog).row.reasoning = "r"
    ∧ (processRow 4 (fun k => if k = 0 then some respHomeWin else none)
        rowHomeUnderdog).warned = true := by
  have h := (C5_exhaustion_behavior 4
      (fun k => if k = 0 then some respHomeWin else none)
      rowHomeUnderdog (by decide) rfl).2 0 "r" "o" 2 0 (by norm_num)
      rfl (by intro j hj1 hj2; simp [Nat.pos_iff_ne_zero.mp hj1]) ?_
  · exact ⟨h.2.1, h.2.2.2.2.2⟩
  · intro j hj
    interval_cases j <;> decide

lemma selectCanonicalOdds_of_all_none (qsGet : String → Option (ℚ × ℚ × ℚ)) :
    ∀ priority : List String, (∀ p ∈ priority, qsGet p = none) →
      selectCanonicalOdds priority qsGet = (0, 0, 0) := by
  intro priority
  induction priority with
  | nil => intro _; rfl
  | cons b rest ih =>
    intro h
    have hb : qsGet b = none := h b (by simp)
    simp only [selectCanonicalOdds, hb]
    exact ih (fun p hp => h p (by simp [hp]))

lemma selectCanonicalOdds_of_first_present (qsGet : String → Option (ℚ × ℚ × ℚ)) :
    ∀ (priority : List String) (i : Nat) (p : String) (t : ℚ × ℚ × ℚ),
      priority.get? i = some p → qsGet p = some t →
      (∀ j q, j < i → priority.get? j = some q → qsGet q = none) →
      selectCanonicalOdds priority qsGet = t := by
  intro priority
  induction priority with
  | nil => intro i p t h; simp at h
  | cons b rest ih =>
    intro i p t hp ht hmin
    cases i with
    | zero =>
      have hb : b = p := by simpa using hp
      subst hb
      simp [selectCanonicalOdds, ht]
    | succ i' =>
      have hb : qsGet b = none := hmin 0 b (Nat.succ_pos i') rfl
      simp only [selectCanonicalOdds, hb]
      exact ih i' p t (by simpa using hp) ht
        (fun j q hj hq => hmin (j + 1) q (by omega) (by simpa using hq))

/-- C3: the canonical odds triple of a match equals the triple of the
first bookmaker of the priority list present in the Quote Set, and the
sentinel `(0.0, 0.0, 0.0)` when no prioritized bookmaker is present. -/
theorem C3_priority_selection (priority : List String)
    (qs : List (String × ℚ × ℚ × ℚ)) :
    ((∀ p ∈ priority, dictGet qs p = none) →
      selectCanonicalOdds priority (dictGet qs) = (0, 0, 0))
    ∧ (∀ i p t, priority.get? i = some p → dictGet qs p = some t →
        (∀ j q, j < i → priority.get? j = some q → dictGet qs q = none) →
        selectCanonicalOdds priority (dictGet qs) = t) :=
  ⟨selectCanonicalOdds_of_all_none (dictGet qs) priority,
   fun i p t hp ht hmin =>
     selectCanonicalOdds_of_first_present (dictGet qs) priority i p t hp ht hmin⟩

/-- Witness for C3 at the spec's example: priority `[A, B]`, `A` absent
from the Quote Set, `B` present with `(1.5, 5.5, 4.5)`. -/
theorem C3_witness :
    selectCanonicalOdds ["A", "B"]
      (dictGet [("B", (mkRat 3 2, mkRat 11 2, mkRat 9 2))]) =
      (mkRat 3 2, mkRat 11 2, mkRat 9 2) := by
  refine (C3_priority_selection ["A", "B"]
      [("B", (mkRat 3 2, mkRat 11 2, mkRat 9 2))]).2
    1 "B" (mkRat 3 2, mkRat 11 2, mkRat 9 2) rfl (by decide) ?_
  intro j q hj hq
  interval_cases j
  have hqa : "A" = q := by simpa using hq
  subst hqa
  decide

/-- C10: Quote Set membership is decided by Python truthiness of the
three extracted prices, so a bookmaker quoting a price of `0` for any
of the three outcomes is excluded exactly like a bookmaker whose
outcome list lacks that outcome. -/
theorem C10_zero_price_like_missing (bm : Bookmaker)
    (home_team away_team : String) :
    ((bookmakerEntry bm home_team away_team).isSome =
      (truthyPrice (extractPrice bm.outcomes home_team) &&
       truthyPrice (extractPrice bm.outcomes away_team) &&
       truthyPrice (extractPrice bm.outcomes "Draw")))
    ∧ (extractPrice bm.outcomes home_team = some 0 ∨
        extractPrice bm.outcomes home_team = none →
        bookmakerEntry bm home_team away_team = none)
    ∧ (extractPrice bm.outcomes away_team = some 0 ∨
        extractPrice bm.outcomes away_team = none →
        bookmakerEntry bm home_team away_team = none)
    ∧ (extractPrice bm.outcomes "Draw" = some 0 ∨
        extractPrice bm.outcomes "Draw" = none →
        bookmakerEntry bm home_team away_team = none) := by
  refine ⟨?_, ?_, ?_, ?_⟩
  · simp only [bookmakerEntry]
    split
    · rename_i hcond; simp [hcond]
    · rename_i hcond
      simp only [Bool.not_eq_true] at hcond
      simp [hcond]
  · intro h
    have hf : truthyPrice (extractPrice bm.outcomes home_team) = false := by
      rcases h with h | h <;> simp [h, truthyPrice]
    simp [bookmakerEntry, hf]
  · intro h
    have hf : truthyPrice (extractPrice bm.outcomes away_team) = false := by
      rcases h with h | h <;> simp [h, truthyPrice]
    simp [bookmakerEntry, hf]
  · intro h
    have hf : truthyPrice (extractPrice bm.outcomes "Draw") = false := by
      rcases h with h | h <;> simp [h, truthyPrice]
    simp [bookmakerEntry, hf]

/-- Witness for C10: a bookmaker quoting a home price of `0.0` is
excluded from the Quote Set. -/
theorem C10_witness :
    bookmakerEntry ⟨"bk", [⟨"H", 0⟩, ⟨"A", 2⟩, ⟨"Draw", 3⟩]⟩ "H" "A" = none :=
  (C10_zero_price_like_missing ⟨"bk", [⟨"H", 0⟩, ⟨"A", 2⟩, ⟨"Draw", 3⟩]⟩
      "H" "A").2.1 (Or.inl (by decide))

lemma splitAtUnderscore_append (p rest : List Char) (hp : ('_' : Char) ∉ p) :
    splitAtUnderscore (p ++ '_' :: rest) = (p, rest) := by
  induction p with
  | nil => simp [splitAtUnderscore]
  | cons c cs ih =>
    have hc : c ≠ '_' := by intro h; exact hp (by simp [h])
    have hcs : ('_' : Char) ∉ cs := fun h => hp (by simp [h])
    simp [splitAtUnderscore, hc, ih hcs]

lemma key_parts_eq (p1 t1 p2 t2 x1 y1 x2 y2 : List Char)
    (hp1 : ('_' : Char) ∉ p1) (hp2 : ('_' : Char) ∉ p2)
    (ht1 : ('_' : Char) ∉ t1) (ht2 : ('_' : Char) ∉ t2)
    (hx1 : ('_' : Char) ∉ x1) (hx2 : ('_' : Char) ∉ x2)
    (h : p1 ++ '_' :: (t1 ++ '_' :: (x1 ++ '_' :: y1)) =
         p2 ++ '_' :: (t2 ++ '_' :: (x2 ++ '_' :: y2))) :
    p1 = p2 ∧ t1 = t2 ∧ x1 = x2 ∧ y1 = y2 := by
  have h1 := congrArg splitAtUnderscore h
  rw [splitAtUnderscore_append p1 _ hp1, splitAtUnderscore_append p2 _ hp2] at h1
  injection h1 with e1 e2
  have h2 := congrArg splitAtUnderscore e2
  rw [splitAtUnderscore_append t1 _ ht1, splitAtUnderscore_append t2 _ ht2] at h2
  injection h2 with f1 f2
  have h3 := congrArg splitAtUnderscore f2
  rw [splitAtUnderscore_append x1 _ hx1, splitAtUnderscore_append x2 _ hx2] at h3
  injection h3 with g1 g2
  exact ⟨e1, f1, g1, g2⟩

lemma combinationKey_data (p t : String) (n a : Bool) :
    (combinationKey p t n a).data =
      p.data ++ '_' :: (t.data ++ '_' ::
        (((if n then "named" else "anonymized") : String).data ++ '_' ::
          ((if a then "with-info" else "no-info") : String).data)) := by
  cases n <;> cases a <;>
    simp [combinationKey, String.data_append, List.append_assoc]

/-- C8 counterexample: the combination key is not collision-free over
all distinct 4-tuples — providers and styles containing underscores can
collide: `("a_b", "c", named, with-info)` and
`("a", "b_c", named, with-info)` are distinct tuples with equal keys. -/
theorem C8_counterexample :
    combinationKey "a_b" "c" true true = combinationKey "a" "b_c" true true
    ∧ (("a_b", "c", true, true) : String × String × Bool × Bool) ≠
        ("a", "b_c", true, true) := by
  exact ⟨rfl, by decide⟩

/-- C8 (amended): the combination key is a pure function of the
4-tuple, and when the provider and style strings contain no underscore
(as the configured identifiers do) two keys are equal iff the
4-tuples are equal. -/
theorem C8_key_deterministic_and_injective
    (p1 t1 p2 t2 : String) (n1 a1 n2 a2 : Bool)
    (hp1 : ('_' : Char) ∉ p1.data) (hp2 : ('_' : Char) ∉ p2.data)
    (ht1 : ('_' : Char) ∉ t1.data) (ht2 : ('_' : Char) ∉ t2.data) :
    combinationKey p1 t1 n1 a1 = combinationKey p2 t2 n2 a2 ↔
      (p1 = p2 ∧ t1 = t2 ∧ n1 = n2 ∧ a1 = a2) := by
  constructor
  · intro heq
    have hd := congrArg String.data heq
    rw [combinationKey_data, combinationKey_data] at hd
    have hx1 : ('_' : Char) ∉ ((if n1 then "named" else "anonymized") : String).data := by
      cases n1 <;> decide
    have hx2 : ('_' : Char) ∉ ((if n2 then "named" else "anonymized") : String).data := by
      cases n2 <;> decide
    obtain ⟨e1, e2, e3, e4⟩ := key_parts_eq _ _ _ _ _ _ _ _
      hp1 hp2 ht1 ht2 hx1 hx2 hd
    refine ⟨String.ext e1, String.ext e2, ?_, ?_⟩
    · cases n1 <;> cases n2 <;> first
        | rfl
        | exact absurd e3 (by decide)
    · cases a1 <;> cases a2 <;> first
        | rfl
        | exact absurd e4 (by decide)
  · rintro ⟨h1, h2, h3, h4⟩
    rw [h1, h2, h3, h4]

/-- Witness for the amended C8 at underscore-free inputs. -/
theorem C8_witness :
    combinationKey "openai" "vanilla" true false =
      combinationKey "openai" "vanilla" true false :=
  (C8_key_deterministic_and_injective "openai" "vanilla" "openai" "vanilla"
      true false true false (by decide) (by decide) (by decide) (by decide)).mpr
    ⟨rfl, rfl, rfl, rfl⟩

lemma processCombo_count_and_export (C : Collaborators) (N : Nat)
    (sport : String) (api : ApiData) (st : WorkflowState)
    (c : String × String × Bool × Bool) :
    (processCombo C N sport api st c).processed_count = st.processed_count + 1
    ∧ (processCombo C N sport api st c).export_calls = st.export_calls := by
  obtain ⟨p, t, n, a⟩ := c
  simp only [processCombo]
  cases hapi : api.truthy with
  | false => simp
  | true =>
    simp only [Bool.not_true, Bool.false_eq_true, if_false]
    cases h : C.process_api_data api n a with
    | error e => simp
    | ok rows => simp only; split <;> simp

lemma processCombo_failed_mono (C : Collaborators) (N : Nat)
    (sport : String) (api : ApiData) (st : WorkflowState)
    (c : String × String × Bool × Bool) :
    ∃ l, (processCombo C N sport api st c).failed_combinations =
      st.failed_combinations ++ l := by
  obtain ⟨p, t, n, a⟩ := c
  simp only [processCombo]
  cases hapi : api.truthy with
  | false => exact ⟨[(sport, p, "No valid API data")], by simp⟩
  | true =>
    simp only [Bool.not_true, Bool.false_eq_true, if_false]
    cases h : C.process_api_data api n a with
    | error e => exact ⟨[(sport, p, e)], by simp⟩
    | ok rows =>
      refine ⟨[], ?_⟩
      simp only [List.append_nil]
      split <;> rfl

lemma foldl_processCombo_failed_mono (C : Collaborators) (N : Nat)
    (sport : String) (api : ApiData) :
    ∀ (combos : List (String × String × Bool × Bool)) (st : WorkflowState),
      ∃ l, (combos.foldl (processCombo C N sport api) st).failed_combinations =
        st.failed_combinations ++ l := by
  intro combos
  induction combos with
  | nil => intro st; exact ⟨[], by simp⟩
  | cons c rest ih =>
    intro st
    obtain ⟨l1, h1⟩ := processCombo_failed_mono C N sport api st c
    obtain ⟨l2, h2⟩ := ih (processCombo C N sport api st c)
    exact ⟨l1 ++ l2, by rw [List.foldl_cons, h2, h1, List.append_assoc]⟩

lemma processCombo_failed_of_error (C : Collaborators) (N : Nat)
    (sport : String) (api : ApiData) (st : WorkflowState)
    (p t : String) (n a : Bool) (e : String)
    (htr : api.truthy = true)
    (herr : C.process_api_data api n a = Except.error e) :
    (processCombo C N sport api st (p, t, n, a)).failed_combinations =
      st.failed_combinations ++ [(sport, p, e)] := by
  simp [processCombo, htr, herr]

lemma processCombo_failed_of_ok (C : Collaborators) (N : Nat)
    (sport : String) (api : ApiData) (st : WorkflowState)
    (p t : String) (n a : Bool) (rows : List Row)
    (htr : api.truthy = true)
    (hok : C.process_api_data api n a = Except.ok rows) :
    (processCombo C N sport api st (p, t, n, a)).failed_combinations =
      st.failed_combinations := by
  simp only [processCombo, htr, Bool.not_true, Bool.false_eq_true, if_false, hok]
  split <;> rfl

lemma mem_failed_foldl_of_error (C : Collaborators) (N : Nat)
    (sport : String) (api : ApiData) (p t : String) (n a : Bool) (e : String)
    (htr : api.truthy = true)
    (herr : C.process_api_data api n a = Except.error e) :
    ∀ (combos : List (String × String × Bool × Bool)) (st : WorkflowState),
      (p, t, n, a) ∈ combos →
      (sport, p, e) ∈
        (combos.foldl (processCombo C N sport api) st).failed_combinations := by
  intro combos
  induction combos with
  | nil => intro st h; simp at h
  | cons c rest ih =>
    intro st hmem
    rw [List.foldl_cons]
    rcases List.mem_cons.mp hmem with heq | htail
    · obtain ⟨l, hl⟩ := foldl_processCombo_failed_mono C N sport api rest
        (processCombo C N sport api st c)
      rw [hl, ← heq, processCombo_failed_of_error C N sport api st p t n a e htr herr]
      simp
    · exact ih (processCombo C N sport api st c) htail

lemma foldl_processCombo_count (C : Collaborators) (N : Nat)
    (sport : String) (api : ApiData) :
    ∀ (combos : List (String × String × Bool × Bool)) (st : WorkflowState),
      (combos.foldl (processCombo C N sport api) st).processed_count =
        st.processed_count + combos.length := by
  intro combos
  induction combos with
  | nil => intro st; simp
  | cons c rest ih =>
    intro st
    rw [List.foldl_cons, ih,
      (processCombo_count_and_export C N sport api st c).1]
    simp only [List.length_cons]
    omega

/-- C7 counterexample: a failure to construct the LLM client is caught
inside `predict_results` (which returns the dataframe unmodified), so
the combination is processed but no `(sport, provider, error)` entry is
ever recorded in the failed-combinations list, contradicting the claim
that such a failure is appended to it. -/
theorem C7_counterexample :
    collabLlmFail.llm_init "p" "t" = false
    ∧ (execute_workflow collabLlmFail cfgOneCombo false).processed_count = 1
    ∧ (execute_workflow collabLlmFail cfgOneCombo false).failed_combinations
        = [] :=
  ⟨rfl, by decide, by decide⟩

/-- C7 (amended): a failure raised inside the combination body — a
raising normalization in particular — is caught and appended to the
failed-combinations list as `(sport, provider, error)`; a combination
whose normalization succeeds never appends an entry, whatever the
`LLMManager` constructor outcome (an LLM-client construction failure
is swallowed inside `predict_results`); and every combination is
processed regardless of earlier failures. -/
theorem C7_failure_isolation (C : Collaborators) (N : Nat) (sport : String)
    (api : ApiData) (combos : List (String × String × Bool × Bool))
    (st : WorkflowState) (p t : String) (n a : Bool) (e : String)
    (rows : List Row) :
    ((p, t, n, a) ∈ combos → api.truthy = true →
      C.process_api_data api n a = Except.error e →
      (sport, p, e) ∈
        (combos.foldl (processCombo C N sport api) st).failed_combinations)
    ∧ (api.truthy = true → C.process_api_data api n a = Except.ok rows →
        (processCombo C N sport api st (p, t, n, a)).failed_combinations =
          st.failed_combinations)
    ∧ ((combos.foldl (processCombo C N sport api) st).processed_count =
        st.processed_count + combos.length) :=
  ⟨fun hmem htr herr =>
      mem_failed_foldl_of_error C N sport api p t n a e htr herr combos st hmem,
   fun htr hok => processCombo_failed_of_ok C N sport api st p t n a rows htr hok,
   foldl_processCombo_count C N sport api combos st⟩

/-- Witness for the amended C7: a raising normalization lands in the
failed list while the combination count still advances. -/
theorem C7_witness :
    ("s", "p", "boom") ∈
      ([(("p" : String), ("t" : String), true, false)].foldl
        (processCombo collabMixed 4 "s" ⟨true, "api"⟩)
        ⟨[], [], 0, []⟩).failed_combinations
    ∧ ([(("p" : String), ("t" : String), true, false)].foldl
        (processCombo collabMixed 4 "s" ⟨true, "api"⟩)
        ⟨[], [], 0, []⟩).processed_count = 0 + 1 :=
  ⟨(C7_failure_isolation collabMixed 4 "s" ⟨true, "api"⟩
      [("p", "t", true, false)] ⟨[], [], 0, []⟩ "p" "t" true false "boom" []).1
      (by simp) rfl rfl,
   (C7_failure_isolation collabMixed 4 "s" ⟨true, "api"⟩
      [("p", "t", true, false)] ⟨[], [], 0, []⟩ "p" "t" true false "boom" []).2.2⟩

lemma foldl_processCombo_export (C : Collaborators) (N : Nat)
    (sport : String) (api : ApiData) :
    ∀ (combos : List (String × String × Bool × Bool)) (st : WorkflowState),
      (combos.foldl (processCombo C N sport api) st).export_calls =
        st.export_calls := by
  intro combos
  induction combos with
  | nil => intro st; rfl
  | cons c rest ih =>
    intro st
    rw [List.foldl_cons, ih]
    exact (processCombo_count_and_export C N sport api st c).2

lemma processSport_export (C : Collaborators) (N : Nat)
    (combos : List (String × String × Bool × Bool)) (st : WorkflowState)
    (sport : String) :
    (processSport C N combos st sport).export_calls = st.export_calls := by
  simp only [processSport]
  cases h : C.fetch_api_data sport with
  | error e => rfl
  | ok api => exact foldl_processCombo_export C N sport api combos st

lemma foldl_processSport_export (C : Collaborators) (N : Nat)
    (combos : List (String × String × Bool × Bool)) :
    ∀ (sports : List String) (st : WorkflowState),
      (sports.foldl (processSport C N combos) st).export_calls =
        st.export_calls := by
  intro sports
  induction sports with
  | nil => intro st; rfl
  | cons s rest ih =>
    intro st
    rw [List.foldl_cons, ih, processSport_export]

lemma attemptExport_prediction_data (cfg : WorkflowConfig) (st : WorkflowState) :
    (attemptExport cfg st).prediction_data = st.prediction_data := by
  simp only [attemptExport]
  split <;> rfl

/-- C9: whenever the run ends with a non-empty result set and an
enabled export channel, export is attempted (even when combinations
failed — the export condition never consults the failed list), every
snapshot handed to the Result Sink is exactly the accumulated
prediction data, and a later raising step (the failure summary,
modelled by `lateError`) triggers a second export attempt from the
outer handler. -/
theorem C9_export_behavior (C : Collaborators) (cfg : WorkflowConfig)
    (lateError : Bool) :
    (¬ (execute_workflow C cfg lateError).prediction_data = [] →
      (cfg.export_to_kv = true ∨ cfg.export_to_file = true) →
      ((execute_workflow C cfg lateError).export_calls ≠ []
        ∧ (lateError = true →
            (execute_workflow C cfg lateError).export_calls.length = 2)))
    ∧ (∀ snap ∈ (execute_workflow C cfg lateError).export_calls,
        snap = (execute_workflow C cfg lateError).prediction_data) := by
  simp only [execute_workflow]
  by_cases hs : cfg.sports_list.isEmpty
  · simp [hs]
  · by_cases hp : cfg.llm_provider_options.isEmpty
    · simp [hs, hp]
    · simp only [hs, hp, if_false, Bool.false_eq_true]
      set st1 := cfg.sports_list.foldl
        (processSport C cfg.llm_attempts (comboList cfg))
        (⟨[], [], 0, []⟩ : WorkflowState) with hst1
      have hexp1 : st1.export_calls = [] :=
        foldl_processSport_export C cfg.llm_attempts (comboList cfg)
          cfg.sports_list ⟨[], [], 0, []⟩
      by_cases hcond : (!st1.prediction_data.isEmpty &&
          (cfg.export_to_kv || cfg.export_to_file)) = true
      · have hst2 : attemptExport cfg st1 =
            { st1 with export_calls := st1.export_calls ++ [st1.prediction_data] } := by
          simp only [attemptExport, hcond, if_true]
        have hcond2 : (!({ st1 with
            export_calls := st1.export_calls ++ [st1.prediction_data]
            } : WorkflowState).prediction_data.isEmpty &&
            (cfg.export_to_kv || cfg.export_to_file)) = true := hcond
        cases lateError with
        | false =>
          rw [if_neg (by simp)]
          rw [hst2, hexp1]
          constructor
          · intro _ _
            exact ⟨by simp, by simp⟩
          · intro snap hsnap
            simp at hsnap
            simp [hsnap]
        | true =>
          rw [if_pos rfl]
          rw [hst2]
          simp only [attemptExport, hcond2, if_true]
          rw [hexp1]
          constructor
          · intro _ _
            exact ⟨by simp, by simp⟩
          · intro snap hsnap
            simp at hsnap
            simp [hsnap]
      · have hcondf : (!st1.prediction_data.isEmpty &&
            (cfg.export_to_kv || cfg.export_to_file)) = false := by
          revert hcond
          cases (!st1.prediction_data.isEmpty &&
            (cfg.export_to_kv || cfg.export_to_file)) <;> simp
        have hst2 : attemptExport cfg st1 = st1 := by
          simp [attemptExport, hcondf]
        have hfinal : (if lateError = true then
            attemptExport cfg (attemptExport cfg st1)
            else attemptExport cfg st1) = st1 := by
          cases lateError <;> simp [hst2]
        rw [hfinal]
        constructor
        · intro hpd hch
          exfalso
          have h1 : st1.prediction_data.isEmpty = false := by
            cases hpde : st1.prediction_data.isEmpty
            · rfl
            · exact absurd (List.isEmpty_iff.mp hpde) hpd
          have h2 : (cfg.export_to_kv || cfg.export_to_file) = true := by
            rcases hch with hh | hh <;> simp [hh]
          rw [h1, h2] at hcondf
          simp at hcondf
        · intro snap hsnap
          rw [hexp1] at hsnap
          simp at hsnap

/-- Witness for C9: a run with one failed and one succeeded
combination and a raising summary step exports twice. -/
theorem C9_witness :
    (execute_workflow collabMixed cfgMixed true).failed_combinations =
      [("s", "p", "boom")]
    ∧ (execute_workflow collabMixed cfgMixed true).export_calls.length = 2 :=
  ⟨by decide,
   ((C9_export_behavior collabMixed cfgMixed true).1 (by decide)
      (Or.inl rfl)).2 rfl⟩

end TipGenius
